import Mathlib

/-!
# Verification of the headers-builder library

Shallow embedding of the `headers-builder` TypeScript library: a fluent
builder that accumulates HTTP response header fields into a string-to-string
mapping.  The embedding follows the source files
(`headers-builder.ts`, `utils.ts`, `mime-types.ts`, `cache-strategies.ts`)
operation by operation; JavaScript objects with string keys are modelled as
insertion-ordered association lists, JavaScript truthiness of strings is
modelled explicitly (the empty string is falsy), and exceptions are modelled
with `Except`.
-/

namespace HeadersBuilderLib

/-- A header mapping: a JS plain object with string keys and string values,
modelled as an insertion-ordered association list without duplicate keys. -/
abbrev HeaderMap := List (String × String)

/-- Read a key from the mapping (JS property read; `none` = `undefined`). -/
def getH (h : HeaderMap) (k : String) : Option String :=
  h.lookup k

/-- Write a key into the mapping (JS property write): an existing key keeps
its position and gets the new value, a fresh key is appended. -/
def setH (h : HeaderMap) (k v : String) : HeaderMap :=
  if (h.lookup k).isSome then
    h.map (fun p => if p.1 = k then (k, v) else p)
  else
    h ++ [(k, v)]

theorem lookup_cons (k' a1 a2 : String) (t : HeaderMap) :
    List.lookup k' ((a1, a2) :: t)
      = if k' = a1 then some a2 else List.lookup k' t := by
  by_cases h : k' = a1
  · have hb : (k' == a1) = true := by simp [h]
    simp [List.lookup, hb, h]
  · have hb : (k' == a1) = false := by simp [h]
    simp [List.lookup, hb, h]

theorem lookup_append_single (h : HeaderMap) (k v k' : String) :
    List.lookup k' (h ++ [(k, v)])
      = match List.lookup k' h with
        | some v' => some v'
        | none => if k' = k then some v else none := by
  induction h with
  | nil =>
    rw [List.nil_append, lookup_cons]
    simp [List.lookup]
  | cons a t ih =>
    obtain ⟨a1, a2⟩ := a
    by_cases hk'a : k' = a1
    · simp [List.cons_append, lookup_cons, hk'a]
    · simp [List.cons_append, lookup_cons, hk'a, ih]

theorem lookup_map_set (h : HeaderMap) (k v k' : String) :
    (h.map (fun p => if p.1 = k then (k, v) else p)).lookup k'
      = if k' = k then (if (h.lookup k).isSome then some v else none)
        else h.lookup k' := by
  induction h with
  | nil =>
    by_cases hk : k' = k <;> simp [List.lookup, hk]
  | cons a t ih =>
    obtain ⟨a1, a2⟩ := a
    by_cases hak : a1 = k
    · subst hak
      by_cases hk : k' = a1
      · subst hk
        simp [lookup_cons, ih]
      · simp [lookup_cons, ih, hk]
    · by_cases hk'a : k' = a1
      · subst hk'a
        simp [lookup_cons, hak, Ne.symm hak]
      · by_cases hk : k' = k
        · subst hk
          rw [lookup_cons, if_neg hk'a]
          simp [lookup_cons, ih, hak, hk'a]
        · simp [lookup_cons, ih, hak, hk'a, hk]

theorem getH_setH (h : HeaderMap) (k v k' : String) :
    getH (setH h k v) k' = if k' = k then some v else getH h k' := by
  unfold getH setH
  by_cases hs : (h.lookup k).isSome
  · rw [if_pos hs, lookup_map_set]
    by_cases hk : k' = k
    · simp [hk, hs]
    · simp [hk]
  · rw [if_neg hs, lookup_append_single]
    by_cases hk : k' = k
    · subst hk
      cases hl : h.lookup k' with
      | some v' => rw [hl] at hs; simp at hs
      | none => simp [hl]
    · cases hl : h.lookup k' with
      | some v' => simp [hl, hk]
      | none => simp [hl, hk]

theorem getH_setH_self (h : HeaderMap) (k v : String) :
    getH (setH h k v) k = some v := by
  simp [getH_setH]

theorem getH_setH_ne (h : HeaderMap) (k v k' : String) (hne : k' ≠ k) :
    getH (setH h k v) k' = getH h k' := by
  simp [getH_setH, hne]

theorem isSome_getH_setH (h : HeaderMap) (k v k' : String)
    (hk : (getH h k').isSome) : (getH (setH h k v) k').isSome := by
  rw [getH_setH]
  by_cases hk' : k' = k <;> simp [hk', hk]

/-! ## MIME type table (`mime-types.ts`) -/

/-- The `MIME_TYPES` constant of `mime-types.ts`, in source order. -/
def MIME_TYPES : List (String × String) :=
  [ ("html", "text/html; charset=utf-8"),
    ("css", "text/css"),
    ("javascript", "application/javascript"),
    ("json", "application/json"),
    ("xml", "application/xml"),
    ("text", "text/plain; charset=utf-8"),
    ("csv", "text/csv"),
    ("markdown", "text/markdown; charset=utf-8"),
    ("png", "image/png"),
    ("jpeg", "image/jpeg"),
    ("gif", "image/gif"),
    ("svg", "image/svg+xml"),
    ("webp", "image/webp"),
    ("icon", "image/x-icon"),
    ("bmp", "image/bmp"),
    ("woff", "font/woff"),
    ("woff2", "font/woff2"),
    ("truetype", "font/ttf"),
    ("embedded-opentype", "application/vnd.ms-fontobject"),
    ("opentype", "font/otf"),
    ("mp4", "video/mp4"),
    ("webm", "video/webm"),
    ("ogg", "video/ogg"),
    ("mpeg", "audio/mpeg"),
    ("wav", "audio/wav"),
    ("flac", "audio/flac"),
    ("pdf", "application/pdf"),
    ("doc", "application/msword"),
    ("docx", "application/vnd.openxmlformats-officedocument.wordprocessingml.document"),
    ("zip", "application/zip"),
    ("tar", "application/x-tar"),
    ("gzip", "application/gzip"),
    ("7z", "application/x-7z-compressed"),
    ("js", "application/javascript"),
    ("txt", "text/plain; charset=utf-8"),
    ("jpg", "image/jpeg"),
    ("ico", "image/x-icon"),
    ("ttf", "font/ttf"),
    ("eot", "application/vnd.ms-fontobject"),
    ("otf", "font/otf"),
    ("mp3", "audio/mpeg"),
    ("gz", "application/gzip") ]

/-- `getMimeType` of `mime-types.ts`: table lookup with the octet-stream
fallback (`MIME_TYPES[extension] || "application/octet-stream"`; every table
value is a non-empty string, so JS truthiness coincides with presence). -/
def getMimeType (extension : String) : String :=
  (MIME_TYPES.lookup extension).getD "application/octet-stream"

/-! ## Content values

`string | ArrayBuffer | Uint8Array` arguments (for `eTag` and `build`) are
modelled as either a string or a list of bytes.  JS truthiness of such a
value: an empty string is falsy, every object (even an empty byte buffer)
is truthy. -/

inductive JsContent where
  | str (s : String)
  | bytes (b : List Nat)
deriving DecidableEq

/-- JS truthiness of a `string | ArrayBuffer | Uint8Array` value. -/
def JsContent.truthy : JsContent → Bool
  | .str s => s ≠ ""
  | .bytes _ => true

/-- UTF-8 encoding of one Unicode code point `n`. -/
def utf8EncodeCodePoint (n : Nat) : List Nat :=
  if n < 128 then [n]
  else if n < 2048 then [192 + n / 64, 128 + n % 64]
  else if n < 65536 then
    [224 + n / 4096, 128 + (n / 64) % 64, 128 + n % 64]
  else
    [240 + n / 262144, 128 + (n / 4096) % 64, 128 + (n / 64) % 64,
     128 + n % 64]

/-- UTF-8 byte sequence of the value (`new TextEncoder().encode(content)`
for strings, the raw bytes otherwise). -/
def JsContent.utf8Bytes : JsContent → List Nat
  | .str s => (s.data.map (fun c => utf8EncodeCodePoint c.toNat)).flatten
  | .bytes b => b

/-- Byte length of the value: UTF-8 encoded length for strings
(`new TextEncoder().encode(content).length`), `byteLength` for binary. -/
def JsContent.byteLength (c : JsContent) : Nat :=
  c.utf8Bytes.length

/-! ## Cache strategy table (`cache-strategies.ts`) -/

/-- The closed `HeadersCacheStrategy` string union of `types.ts`. -/
inductive HeadersCacheStrategy where
  | NO_CACHE | ONE_YEAR | IMMUTABLE | ONE_MONTH | ONE_WEEK | ONE_DAY
  | ONE_HOUR | FIVE_MINUTES | API
  | STYLESHEET | JAVASCRIPT | HASHED_ASSET | FONT | IMAGE | FAVICON
  | HTML_PAGE | API_RESPONSE | FEED | SITEMAP | MANIFEST | SERVICE_WORKER
  | MEDIA_STREAM | DOCUMENT | ARCHIVE
deriving DecidableEq

/-- One entry of `CACHE_CONFIGS`: a Cache-Control value and an optional
Expires value. -/
structure CacheConfig where
  cacheControl : String
  expires : Option String := none
deriving DecidableEq

/-- The two `Date` strings baked into `CACHE_CONFIGS` at module-load time:
`new Date(0).toUTCString()` and
`new Date(Date.now() + 31536000 * 1000).toUTCString()`.  Date formatting is
outside the embedding, so the table is parameterised by these two strings. -/
structure DateEnv where
  epochUTC : String
  oneYearFromNowUTC : String

/-- The `CACHE_CONFIGS` table of `cache-strategies.ts`. -/
def CACHE_CONFIGS (env : DateEnv) : HeadersCacheStrategy → CacheConfig
  | .NO_CACHE =>
      { cacheControl := "no-cache, no-store, must-revalidate",
        expires := some env.epochUTC }
  | .ONE_YEAR =>
      { cacheControl := "public, max-age=31536000",
        expires := some env.oneYearFromNowUTC }
  | .IMMUTABLE =>
      { cacheControl := "public, max-age=31536000, immutable",
        expires := some env.oneYearFromNowUTC }
  | .ONE_MONTH => { cacheControl := "public, max-age=2592000" }
  | .ONE_WEEK => { cacheControl := "public, max-age=604800" }
  | .ONE_DAY => { cacheControl := "public, max-age=86400, must-revalidate" }
  | .ONE_HOUR => { cacheControl := "public, max-age=3600, must-revalidate" }
  | .FIVE_MINUTES => { cacheControl := "public, max-age=300" }
  | .API => { cacheControl := "public, max-age=300, s-maxage=3600" }
  | .STYLESHEET =>
      { cacheControl := "public, max-age=2592000, must-revalidate" }
  | .JAVASCRIPT =>
      { cacheControl := "public, max-age=2592000, must-revalidate" }
  | .HASHED_ASSET =>
      { cacheControl := "public, max-age=31536000, immutable",
        expires := some env.oneYearFromNowUTC }
  | .FONT =>
      { cacheControl := "public, max-age=31536000",
        expires := some env.oneYearFromNowUTC }
  | .IMAGE => { cacheControl := "public, max-age=2592000" }
  | .FAVICON =>
      { cacheControl := "public, max-age=31536000",
        expires := some env.oneYearFromNowUTC }
  | .HTML_PAGE => { cacheControl := "public, max-age=3600, must-revalidate" }
  | .API_RESPONSE => { cacheControl := "public, max-age=300, s-maxage=900" }
  | .FEED => { cacheControl := "public, max-age=3600" }
  | .SITEMAP => { cacheControl := "public, max-age=86400" }
  | .MANIFEST => { cacheControl := "public, max-age=86400, must-revalidate" }
  | .SERVICE_WORKER =>
      { cacheControl := "no-cache, no-store, must-revalidate",
        expires := some env.epochUTC }
  | .MEDIA_STREAM => { cacheControl := "no-cache, no-store" }
  | .DOCUMENT => { cacheControl := "public, max-age=86400" }
  | .ARCHIVE => { cacheControl := "public, max-age=604800" }

/-- `getCacheConfig` of `cache-strategies.ts`. -/
def getCacheConfig (env : DateEnv) (strategy : HeadersCacheStrategy) :
    CacheConfig :=
  CACHE_CONFIGS env strategy

/-! ## Content hasher (`utils.ts`)

`hashContent` picks the first available of three tiers: `Bun.hash`, node's
MD5, and a portable fallback.  The first two are host capabilities outside
the embedding; the fallback tier is embedded below, bit for bit.  Builder
theorems that involve hashing are stated over an arbitrary hash function
and instantiated with the fallback. -/

/-- JS 32-bit signed truncation, as performed by `x & x` and by the shift
in `x << 5`: reduce modulo `2^32` into `[-2^31, 2^31)`. -/
def toInt32 (x : Int) : Int :=
  let m := x % 4294967296
  if m < 2147483648 then m else m - 4294967296

/-- One iteration of the fallback loop:
`hash = (hash << 5) - hash + bytes[i]; hash = hash & hash;`. -/
def jsHashStep (hash : Int) (b : Nat) : Int :=
  toInt32 (toInt32 (hash * 32) - hash + b)

/-- The fallback loop's final accumulator over a byte sequence
(initial `hash = 0`). -/
def jsHash (bytes : List Nat) : Int :=
  bytes.foldl jsHashStep 0

/-- The sixteen lowercase hex digit characters, in value order
(`0`–`9` then `a`–`f`). -/
def hexChars : List Char :=
  (List.range 16).map
    (fun n => Char.ofNat (if n < 10 then 48 + n else 87 + n))

/-- One lowercase hex digit, as produced by JS `Number.toString(16)`. -/
def hexDigit (n : Nat) : Char :=
  hexChars.getD n 'f'

/-- Hex digits of `n`, most significant first; `fuel` bounds the recursion
(`fuel ≥ 1 + log16 n` suffices, and `n + 1` always does). -/
def natToHexCore : Nat → Nat → List Char
  | 0, _ => []
  | fuel + 1, n =>
    if n < 16 then [hexDigit n]
    else natToHexCore fuel (n / 16) ++ [hexDigit (n % 16)]

/-- JS `n.toString(16)` for a non-negative integer: lowercase hex, no
leading zeros, `"0"` for zero. -/
def natToHex (n : Nat) : String :=
  ⟨natToHexCore (n + 1) n⟩

/-- JS `s.padStart(16, "0")`. -/
def padStart16 (s : String) : String :=
  ⟨List.replicate (16 - s.length) '0' ++ s.data⟩

/-- The fallback tier of `hashContent` on a byte sequence:
`Math.abs(hash).toString(16).padStart(16, "0")`. -/
def hashFallbackBytes (bytes : List Nat) : String :=
  padStart16 (natToHex (jsHash bytes).natAbs)

/-- The fallback tier of `hashContent` on a `string | ArrayBuffer |
Uint8Array` value (strings are first UTF-8 encoded via `TextEncoder`). -/
def hashContentFallback (content : JsContent) : String :=
  hashFallbackBytes content.utf8Bytes

/-- The hashing step as the specification words it: `hash = hash*31 + byte`
with the accumulator masked to 32 bits, over the UTF-8 bytes. -/
def maskedHashSpec (bytes : List Nat) : Nat :=
  bytes.foldl (fun h b => (h * 31 + b) % 4294967296) 0

/-- The emitted string as the specification words it: the masked 32-bit
accumulator as a zero-padded fixed-width lowercase hex string (the code's
fixed width, 16). -/
def specRollingHashHex (bytes : List Nat) : String :=
  padStart16 (natToHex (maskedHashSpec bytes))

/-! ## Builder operations (`headers-builder.ts`)

The builder's private `headers` object is the explicit `HeaderMap`
argument; each method of the class becomes a function from the old mapping
to the new one.  Operations that consume host values outside the embedding
take them as parameters: `cache` takes the `DateEnv` snapshot,
`lastModified` the already-formatted `toUTCString()` value, `eTag` the
runtime-selected hash function. -/

/-- JS truthiness of a `string | undefined` value. -/
def jsTruthy : Option String → Bool
  | some s => s != ""
  | none => false

/-- `contentType(type)`: `this.headers["Content-Type"] = getMimeType(type)`.
The TS parameter type is the closed `HeadersContentTypeInput` union, a
subset of the strings on which `getMimeType` is total. -/
def contentType (type : String) (h : HeaderMap) : HeaderMap :=
  setH h "Content-Type" (getMimeType type)

/-- The last `.`-separated segment of a character list:
`path.split(".").pop()` (the whole path when it has no `.`). -/
def afterLastDot (cs : List Char) : List Char :=
  (cs.reverse.takeWhile (fun c => c ≠ '.')).reverse

/-- `filePath(path)`: `path.split(".").pop()?.toLowerCase() || ""` looked up
through `getMimeType` (the `|| ""` only renames the already-empty string). -/
def filePath (path : String) (h : HeaderMap) : HeaderMap :=
  let ext : String := ⟨(afterLastDot path.data).map Char.toLower⟩
  setH h "Content-Type" (getMimeType ext)

/-- `mimeType(mimeType)`: sets `Content-Type` verbatim. -/
def mimeType (m : String) (h : HeaderMap) : HeaderMap :=
  setH h "Content-Type" m

/-- `cache(strategy)`: sets `Cache-Control`, and `Expires` only when the
entry defines one (`if (expires)` — JS truthiness on the string). -/
def cache (env : DateEnv) (strategy : HeadersCacheStrategy)
    (h : HeaderMap) : HeaderMap :=
  let cfg := getCacheConfig env strategy
  let h := setH h "Cache-Control" cfg.cacheControl
  match cfg.expires with
  | some e => if e ≠ "" then setH h "Expires" e else h
  | none => h

/-- `s.startsWith('"')`: the first character is a double quote. -/
def startsWithQuote (s : String) : Bool :=
  match s.data with
  | c :: _ => c = '"'
  | [] => false

/-- `eTag(contentOrETag)`: skip when the argument is absent or falsy; a
string already starting with `"` is used verbatim; otherwise the digest of
the content, wrapped in double quotes. -/
def eTag (hash : JsContent → String) (contentOrETag : Option JsContent)
    (h : HeaderMap) : HeaderMap :=
  match contentOrETag with
  | none => h
  | some c =>
    if !c.truthy then h
    else
      let etag := match c with
        | .str s => if startsWithQuote s then s else "\"" ++ hash c ++ "\""
        | .bytes _ => "\"" ++ hash c ++ "\""
      setH h "ETag" etag

/-- `lastModified(date)`: sets `Last-Modified` to `date.toUTCString()`
(date formatting is outside the embedding, so the formatted string is the
parameter). -/
def lastModified (dateUTC : String) (h : HeaderMap) : HeaderMap :=
  setH h "Last-Modified" dateUTC

/-- `contentLength(bytes)`: sets `Content-Length` to `bytes.toString()`. -/
def contentLength (bytes : Nat) (h : HeaderMap) : HeaderMap :=
  setH h "Content-Length" (toString bytes)

/-- `redirect(url, permanent = false)`: sets `Location` and
`X-Redirect-Type`. -/
def redirect (url : String) (permanent : Bool) (h : HeaderMap) : HeaderMap :=
  setH (setH h "Location" url) "X-Redirect-Type"
    (if permanent then "permanent" else "temporary")

/-- The options object of `cors` (absent fields take the destructuring
defaults). -/
structure CorsOptions where
  origin : Option String := none
  methods : Option (List String) := none
  headers : Option (List String) := none
  maxAge : Option Nat := none
  credentials : Option Bool := none

/-- The message of the error thrown by `cors` on a credentialed wildcard. -/
def corsWildcardCredentialsMsg : String :=
  "CORS: Cannot use credentials with wildcard origin \"*\". Specify an exact origin or set credentials to false."

/-- `cors(options = {})`: resolves the defaults, rejects a credentialed
wildcard origin before any mutation, then writes the five CORS headers
(the credentials header only when the resolved credentials are true). -/
def cors (opts : CorsOptions) (h : HeaderMap) : Except String HeaderMap :=
  let origin := opts.origin.getD "*"
  let methods := opts.methods.getD ["GET", "POST", "PUT", "DELETE", "OPTIONS"]
  let allowHeaders := opts.headers.getD ["Content-Type", "Authorization"]
  let maxAge := opts.maxAge.getD 86400
  let allowCredentials := opts.credentials.getD (origin ≠ "*")
  if allowCredentials ∧ origin = "*" then
    .error corsWildcardCredentialsMsg
  else
    let h := setH h "Access-Control-Allow-Origin" origin
    let h := setH h "Access-Control-Allow-Methods"
      (String.intercalate ", " methods)
    let h := setH h "Access-Control-Allow-Headers"
      (String.intercalate ", " allowHeaders)
    let h := if allowCredentials then
        setH h "Access-Control-Allow-Credentials" "true"
      else h
    let h := setH h "Access-Control-Max-Age" (toString maxAge)
    .ok h

/-- The `hsts` option: `boolean | number`. -/
inductive HstsOption where
  | bool (b : Bool)
  | seconds (n : Nat)

/-- JS truthiness of an `hsts` value (`0` and `false` are falsy). -/
def HstsOption.truthy : HstsOption → Bool
  | .bool b => b
  | .seconds n => n != 0

/-- The options object of `security`. -/
structure SecurityOptions where
  csp : Option String := none
  hsts : Option HstsOption := none
  noSniff : Option Bool := none
  frameOptions : Option String := none
  xssProtection : Option Bool := none

/-- `security(options?)`: merges the supplied options over the defaults
(`hsts: true, noSniff: true, frameOptions: "SAMEORIGIN",
xssProtection: true`), then conditionally writes each header. -/
def security (options : Option SecurityOptions) (h : HeaderMap) :
    HeaderMap :=
  let o := options.getD {}
  let hsts := o.hsts.getD (.bool true)
  let noSniff := o.noSniff.getD true
  let frameOptions := o.frameOptions.getD "SAMEORIGIN"
  let xssProtection := o.xssProtection.getD true
  let h := match o.csp with
    | some s => if s ≠ "" then setH h "Content-Security-Policy" s else h
    | none => h
  let h := if hsts.truthy then
      let maxAge := match hsts with
        | .seconds n => n
        | .bool _ => 31536000
      setH h "Strict-Transport-Security"
        ("max-age=" ++ toString maxAge ++ "; includeSubDomains")
    else h
  let h := if noSniff then setH h "X-Content-Type-Options" "nosniff" else h
  let h := if frameOptions ≠ "" then
      setH h "X-Frame-Options" frameOptions
    else h
  let h := if xssProtection then
      setH h "X-XSS-Protection" "1; mode=block"
    else h
  h

/-- `custom(name, value)`. -/
def custom (name value : String) (h : HeaderMap) : HeaderMap :=
  setH h name value

/-- `customHeaders(headers)`: `Object.assign`, key by key in order. -/
def customHeaders (hdrs : List (String × String)) (h : HeaderMap) :
    HeaderMap :=
  hdrs.foldl (fun acc p => setH acc p.1 p.2) h

/-- `vary(...fields)`: appends to an existing truthy `Vary` value. -/
def vary (fields : List String) (h : HeaderMap) : HeaderMap :=
  let joined := String.intercalate ", " fields
  let newFields := match getH h "Vary" with
    | some existing =>
      if existing ≠ "" then existing ++ ", " ++ joined else joined
    | none => joined
  setH h "Vary" newFields

/-- `compress(encoding?)`: no-op unless a truthy encoding is given. -/
def compress (encoding : Option String) (h : HeaderMap) : HeaderMap :=
  match encoding with
  | some e => if e ≠ "" then setH h "Content-Encoding" e else h
  | none => h

/-- `build(content?)`: a copy of the mapping, with `Content-Length`
injected when truthy content is supplied and the key is not already
truthy (`if (content && !result["Content-Length"])`). -/
def build (h : HeaderMap) (content : Option JsContent) : HeaderMap :=
  match content with
  | some c =>
    if c.truthy && !(jsTruthy (getH h "Content-Length")) then
      setH h "Content-Length" (toString c.byteLength)
    else h
  | none => h

/-! ## CORS origin resolver (`utils.ts`, `getCorsOrigin`) -/

/-- `getCorsOrigin(req, allowedOrigins, options?)`.
`req.headers.get("Origin")` is the `requestOrigin` parameter (`none` =
header absent, i.e. `null`); `process.env.NODE_ENV !== "production"` is the
`isDev` parameter; `options?.allowAll` is `allowAllOpt`. -/
def getCorsOrigin (requestOrigin : Option String)
    (allowedOrigins : List String) (allowAllOpt : Option Bool)
    (isDev : Bool) : String :=
  let allowAll := allowAllOpt.getD isDev
  if allowAll && jsTruthy requestOrigin then
    requestOrigin.getD ""
  else if allowedOrigins.isEmpty then
    (if jsTruthy requestOrigin then requestOrigin.getD "" else "*")
  else if !(jsTruthy requestOrigin) then
    allowedOrigins.headD ""
  else if allowedOrigins.contains (requestOrigin.getD "") then
    requestOrigin.getD ""
  else
    allowedOrigins.headD ""

/-! ## The builder operations as one type

Used to quantify over "every builder operation". -/

inductive BuilderOp where
  | contentType (type : String)
  | filePath (path : String)
  | mimeType (m : String)
  | cache (strategy : HeadersCacheStrategy)
  | eTag (contentOrETag : Option JsContent)
  | lastModified (dateUTC : String)
  | contentLength (bytes : Nat)
  | redirect (url : String) (permanent : Bool)
  | cors (opts : CorsOptions)
  | security (options : Option SecurityOptions)
  | custom (name value : String)
  | customHeaders (hdrs : List (String × String))
  | vary (fields : List String)
  | compress (encoding : Option String)

/-- The builder's headers after a call of the given method: the method's
result, except that a `cors` call that throws leaves the mapping as it was
(the exception propagates before any assignment to `this.headers`). -/
def applyOp (env : DateEnv) (hash : JsContent → String) :
    BuilderOp → HeaderMap → HeaderMap
  | .contentType t, h => contentType t h
  | .filePath p, h => filePath p h
  | .mimeType m, h => mimeType m h
  | .cache s, h => cache env s h
  | .eTag c, h => eTag hash c h
  | .lastModified d, h => lastModified d h
  | .contentLength n, h => contentLength n h
  | .redirect u p, h => redirect u p h
  | .cors o, h => match cors o h with
    | .ok h' => h'
    | .error _ => h
  | .security o, h => security o h
  | .custom n v, h => custom n v h
  | .customHeaders m, h => customHeaders m h
  | .vary f, h => vary f h
  | .compress e, h => compress e h

/-! ## An object store, for the aliasing behaviour of `build`

`build` returns `{ ...this.headers }` — a fresh object, never the
builder's own.  To state that, JS objects are given identities: a store is
a list of header objects, a reference is an index, the builder owns one
reference, and `build` allocates a new object initialised with the copy. -/

/-- A heap of header objects; references are indices. -/
structure Store where
  cells : List HeaderMap

/-- Dereference (out-of-range reads give the empty object; all theorems
keep references in range). -/
def readRef (st : Store) (r : Nat) : HeaderMap :=
  st.cells.getD r []

/-- Mutate the object behind a reference. -/
def writeRef (st : Store) (r : Nat) (v : HeaderMap) : Store :=
  ⟨st.cells.set r v⟩

/-- Allocate a fresh object. -/
def allocRef (st : Store) (v : HeaderMap) : Store × Nat :=
  (⟨st.cells ++ [v]⟩, st.cells.length)

/-- `build(content?)` with object identities: reads the builder's object
(`builderRef`), computes the result mapping, and returns a reference to a
newly allocated object holding it. -/
def buildAlloc (st : Store) (builderRef : Nat) (content : Option JsContent) :
    Store × Nat :=
  allocRef st (build (readRef st builderRef) content)

/-! ## Claim C1 -/

/-- C1: whenever the resolved credentials are true and the (resolved) origin
option is `"*"`, `cors` fails with the configuration-violation error, and
the builder's header mapping after the failed call is exactly what it was
before — the throw happens before any assignment. -/
theorem cors_wildcard_credentials_fails (env : DateEnv)
    (hash : JsContent → String) (opts : CorsOptions) (h : HeaderMap)
    (hcred : opts.credentials.getD (opts.origin.getD "*" ≠ "*") = true)
    (horig : opts.origin.getD "*" = "*") :
    cors opts h = .error corsWildcardCredentialsMsg
      ∧ applyOp env hash (.cors opts) h = h := by
  have herr : cors opts h = .error corsWildcardCredentialsMsg := by
    simp only [cors]
    rw [if_pos ⟨hcred, horig⟩]
  refine ⟨herr, ?_⟩
  simp [applyOp, herr]

/-- Witness for C1 at `cors({ origin: "*", credentials: true })` on a fresh
builder. -/
theorem cors_wildcard_credentials_fails_witness :
    (({ origin := some "*", credentials := some true } :
        CorsOptions).credentials.getD
      (({ origin := some "*", credentials := some true } :
        CorsOptions).origin.getD "*" ≠ "*") = true)
    ∧ (({ origin := some "*", credentials := some true } :
        CorsOptions).origin.getD "*" = "*")
    ∧ cors { origin := some "*", credentials := some true } []
        = .error corsWildcardCredentialsMsg
    ∧ applyOp ⟨"e", "y"⟩ hashContentFallback
        (.cors { origin := some "*", credentials := some true }) [] = [] := by
  refine ⟨by decide, by decide, ?_⟩
  exact cors_wildcard_credentials_fails ⟨"e", "y"⟩ hashContentFallback
    { origin := some "*", credentials := some true } [] (by decide) (by decide)

/-! ## Claim C2 -/

/-- C2: on every successful `cors` call the credentials header is governed
by `credentials ?? (origin !== "*")` — present (with value `"true"`) when
that resolves to true, untouched when it resolves to false; `cors()` on a
fresh builder sets `Access-Control-Allow-Origin` to `"*"` and leaves no
`Access-Control-Allow-Credentials` key; `cors({ origin: o })` for `o ≠ "*"`
on a fresh builder sets `Access-Control-Allow-Credentials` to `"true"`. -/
theorem cors_credentials_resolution :
    (∀ (opts : CorsOptions) (h h' : HeaderMap), cors opts h = .ok h' →
      getH h' "Access-Control-Allow-Origin" = some (opts.origin.getD "*")
      ∧ (opts.credentials.getD (opts.origin.getD "*" ≠ "*") = true →
          getH h' "Access-Control-Allow-Credentials" = some "true")
      ∧ (opts.credentials.getD (opts.origin.getD "*" ≠ "*") = false →
          getH h' "Access-Control-Allow-Credentials"
            = getH h "Access-Control-Allow-Credentials"))
    ∧ (∃ h', cors {} [] = .ok h'
        ∧ getH h' "Access-Control-Allow-Origin" = some "*"
        ∧ getH h' "Access-Control-Allow-Credentials" = none)
    ∧ (∀ o : String, o ≠ "*" → ∃ h',
        cors { origin := some o } [] = .ok h'
        ∧ getH h' "Access-Control-Allow-Credentials" = some "true") := by
  have main : ∀ (opts : CorsOptions) (h h' : HeaderMap),
      cors opts h = .ok h' →
      getH h' "Access-Control-Allow-Origin" = some (opts.origin.getD "*")
      ∧ (opts.credentials.getD (opts.origin.getD "*" ≠ "*") = true →
          getH h' "Access-Control-Allow-Credentials" = some "true")
      ∧ (opts.credentials.getD (opts.origin.getD "*" ≠ "*") = false →
          getH h' "Access-Control-Allow-Credentials"
            = getH h "Access-Control-Allow-Credentials") := by
    intro opts h h' hok
    simp only [cors] at hok
    split at hok
    · exact absurd hok (by simp)
    · injection hok with hh
      subst hh
      refine ⟨?_, ?_, ?_⟩
      · rw [getH_setH_ne _ _ _ _ (by decide)]
        by_cases hc :
            opts.credentials.getD (opts.origin.getD "*" ≠ "*") = true
        · rw [if_pos hc, getH_setH_ne _ _ _ _ (by decide),
            getH_setH_ne _ _ _ _ (by decide),
            getH_setH_ne _ _ _ _ (by decide), getH_setH_self]
        · rw [if_neg hc, getH_setH_ne _ _ _ _ (by decide),
            getH_setH_ne _ _ _ _ (by decide), getH_setH_self]
      · intro hc
        rw [getH_setH_ne _ _ _ _ (by decide), if_pos hc, getH_setH_self]
      · intro hc
        rw [getH_setH_ne _ _ _ _ (by decide),
          if_neg (fun hcon => by rw [hc] at hcon; simp at hcon),
          getH_setH_ne _ _ _ _ (by decide),
          getH_setH_ne _ _ _ _ (by decide),
          getH_setH_ne _ _ _ _ (by decide)]
  refine ⟨main, ?_, ?_⟩
  · refine ⟨_, rfl, ?_, ?_⟩
    · exact (main {} [] _ rfl).1
    · rfl
  · intro o ho
    obtain ⟨h', hok⟩ : ∃ h', cors { origin := some o } [] = .ok h' := by
      simp only [cors]
      rw [if_neg (fun hcon => ho hcon.2)]
      exact ⟨_, rfl⟩
    exact ⟨h', hok, (main { origin := some o } [] _ hok).2.1 (by simp [ho])⟩

/-- Witness for C2 at `cors({ origin: "https://x.test" })`. -/
theorem cors_credentials_resolution_witness :
    ("https://x.test" : String) ≠ "*"
    ∧ ∃ h', cors { origin := some "https://x.test" } [] = .ok h'
        ∧ getH h' "Access-Control-Allow-Credentials" = some "true" :=
  ⟨by decide, cors_credentials_resolution.2.2 "https://x.test" (by decide)⟩

/-! ## Claim C3 -/

/-- C3: the CORS origin resolver follows the five-step decision order.
A request origin is "present" in the JS sense: the `Origin` header exists
and is not the empty string. -/
theorem getCorsOrigin_decision_order (ro : Option String)
    (allowed : List String) (opt : Option Bool) (isDev : Bool) :
    ((opt.getD isDev) = true → jsTruthy ro = true →
      getCorsOrigin ro allowed opt isDev = ro.getD "")
    ∧ (¬((opt.getD isDev) = true ∧ jsTruthy ro = true) → allowed = [] →
        getCorsOrigin ro allowed opt isDev
          = (if jsTruthy ro then ro.getD "" else "*"))
    ∧ (¬((opt.getD isDev) = true ∧ jsTruthy ro = true) → allowed ≠ [] →
        jsTruthy ro = false →
        getCorsOrigin ro allowed opt isDev = allowed.headD "")
    ∧ (¬((opt.getD isDev) = true ∧ jsTruthy ro = true) → allowed ≠ [] →
        jsTruthy ro = true → (ro.getD "") ∈ allowed →
        getCorsOrigin ro allowed opt isDev = ro.getD "")
    ∧ (¬((opt.getD isDev) = true ∧ jsTruthy ro = true) → allowed ≠ [] →
        jsTruthy ro = true → (ro.getD "") ∉ allowed →
        getCorsOrigin ro allowed opt isDev = allowed.headD "") := by
  refine ⟨?_, ?_, ?_, ?_, ?_⟩
  · intro ha ht
    simp [getCorsOrigin, ha, ht]
  · intro hna he
    simp only [getCorsOrigin]
    rw [if_neg (by simpa using hna)]
    simp [he]
  · intro hna hne ht
    simp only [getCorsOrigin]
    rw [if_neg (by simpa using hna)]
    simp [hne, ht, List.isEmpty_iff]
  · intro hna hne ht hm
    simp only [getCorsOrigin]
    rw [if_neg (by simpa using hna)]
    simp [hne, ht, hm, List.isEmpty_iff]
  · intro hna hne ht hm
    simp only [getCorsOrigin]
    rw [if_neg (by simpa using hna)]
    simp [hne, ht, hm, List.isEmpty_iff]

/-- Witness for C3: fallback-to-first on a non-matching origin in
production, and verbatim echo in development. -/
theorem getCorsOrigin_decision_order_witness :
    getCorsOrigin (some "https://evil.test") ["https://a.test"] none false
      = "https://a.test"
    ∧ getCorsOrigin (some "https://evil.test") ["https://a.test"] none true
      = "https://evil.test" := by
  constructor
  · exact (getCorsOrigin_decision_order (some "https://evil.test")
      ["https://a.test"] none false).2.2.2.2 (by decide) (by decide)
      (by decide) (by decide)
  · exact (getCorsOrigin_decision_order (some "https://evil.test")
      ["https://a.test"] none true).1 (by decide) (by decide)

/-! ## Claim C4 -/

/-- C4 (code against its own documentation): `getCorsOrigin` has no
localhost or port flexibility and no `allowAnyLocalhost` / `allowAnyPort`
configuration — its options hold only `allowAll`.  Concretely: (i) with
allow-all off, a request origin differing from an allowed origin only in
the localhost hostname spelling (`127.0.0.1` vs `localhost`) is not
accepted, even in development; (ii) the same hostname with a different
port is likewise not accepted; (iii) with allow-all on — the only
flexibility switch — every origin is returned verbatim, so no
hostname-based analysis exists anywhere. -/
theorem getCorsOrigin_no_localhost_flexibility :
    getCorsOrigin (some "http://127.0.0.1:3000") ["http://localhost:3000"]
      (some false) true = "http://localhost:3000"
    ∧ getCorsOrigin (some "http://localhost:5173") ["http://localhost:3000"]
      none false = "http://localhost:3000"
    ∧ getCorsOrigin (some "http://evil.test") ["https://a.test"] none true
      = "http://evil.test" := by
  refine ⟨by decide, by decide, by decide⟩

/-! ## Claim C5 -/

theorem toInt32_bounds (x : Int) :
    -2147483648 ≤ toInt32 x ∧ toInt32 x < 2147483648 := by
  unfold toInt32
  dsimp only
  split <;> omega

theorem toInt32_emod (x : Int) :
    toInt32 x % 4294967296 = x % 4294967296 := by
  unfold toInt32
  dsimp only
  split <;> omega

theorem jsHashStep_emod (h : Int) (b : Nat) :
    jsHashStep h b % 4294967296 = (31 * h + b) % 4294967296 := by
  unfold jsHashStep
  have h1 := toInt32_emod (toInt32 (h * 32) - h + b)
  have h2 := toInt32_emod (h * 32)
  omega

theorem jsHashStep_bounds (h : Int) (b : Nat) :
    -2147483648 ≤ jsHashStep h b ∧ jsHashStep h b < 2147483648 :=
  toInt32_bounds _

theorem foldl_jsHashStep_bounds (bytes : List Nat) :
    ∀ h : Int, -2147483648 ≤ h → h < 2147483648 →
      -2147483648 ≤ bytes.foldl jsHashStep h
      ∧ bytes.foldl jsHashStep h < 2147483648 := by
  induction bytes with
  | nil => intro h h0 h1; exact ⟨h0, h1⟩
  | cons b bs ih =>
    intro h h0 h1
    rw [List.foldl_cons]
    exact ih _ (jsHashStep_bounds h b).1 (jsHashStep_bounds h b).2

theorem jsHash_bounds (bytes : List Nat) :
    -2147483648 ≤ jsHash bytes ∧ jsHash bytes < 2147483648 :=
  foldl_jsHashStep_bounds bytes 0 (by decide) (by decide)

theorem foldl_mask_lt (bytes : List Nat) :
    ∀ n : Nat, n < 4294967296 →
      bytes.foldl (fun h b => (h * 31 + b) % 4294967296) n < 4294967296 := by
  induction bytes with
  | nil => intro n hn; exact hn
  | cons b bs ih =>
    intro n hn
    rw [List.foldl_cons]
    exact ih _ (Nat.mod_lt _ (by norm_num))

theorem maskedHashSpec_lt (bytes : List Nat) :
    maskedHashSpec bytes < 4294967296 :=
  foldl_mask_lt bytes 0 (by decide)

theorem foldl_jsHashStep_emod (bytes : List Nat) :
    ∀ (h : Int) (n : Nat), h % 4294967296 = (n : Int) % 4294967296 →
      (bytes.foldl jsHashStep h) % 4294967296
        = ((bytes.foldl (fun h b => (h * 31 + b) % 4294967296) n : Nat) : Int)
            % 4294967296 := by
  induction bytes with
  | nil => intro h n hn; exact hn
  | cons b bs ih =>
    intro h n hn
    rw [List.foldl_cons, List.foldl_cons]
    refine ih _ _ ?_
    have h1 := jsHashStep_emod h b
    push_cast
    omega

theorem jsHash_emod (bytes : List Nat) :
    jsHash bytes % 4294967296 = (maskedHashSpec bytes : Int) := by
  have h1 := foldl_jsHashStep_emod bytes 0 0 (by decide)
  have h2 := maskedHashSpec_lt bytes
  unfold jsHash maskedHashSpec
  unfold maskedHashSpec at h2
  omega

theorem natToHexCore_length :
    ∀ (fuel k n : Nat), 0 < k → k ≤ fuel → n < 16 ^ k →
      (natToHexCore fuel n).length ≤ k := by
  intro fuel
  induction fuel with
  | zero => intro k n hk hkf _; omega
  | succ f ih =>
    intro k n hk hkf hn
    simp only [natToHexCore]
    by_cases h16 : n < 16
    · rw [if_pos h16]
      simpa using hk
    · rw [if_neg h16]
      have hk2 : 2 ≤ k := by
        by_contra hlt
        have hk1 : k = 1 := by omega
        rw [hk1, pow_one] at hn
        omega
      have hpow : 16 ^ k = 16 ^ (k - 1) * 16 := by
        rw [← pow_succ]
        congr 1
        omega
      have hdiv : n / 16 < 16 ^ (k - 1) := by
        rw [Nat.div_lt_iff_lt_mul (by norm_num)]
        omega
      have hrec := ih (k - 1) (n / 16) (by omega) (by omega) hdiv
      rw [List.length_append]
      simp only [List.length_singleton]
      omega

theorem hexDigit_mem (n : Nat) :
    hexDigit n ∈ hexChars := by
  unfold hexDigit
  by_cases h : n < hexChars.length
  · rw [List.getD_eq_getElem _ _ h]
    exact List.getElem_mem h
  · rw [List.getD_eq_default _ _ (le_of_not_lt h)]
    decide

theorem natToHexCore_chars :
    ∀ (fuel n : Nat) (c : Char), c ∈ natToHexCore fuel n →
      c ∈ hexChars := by
  intro fuel
  induction fuel with
  | zero => intro n c hc; simp [natToHexCore] at hc
  | succ f ih =>
    intro n c hc
    simp only [natToHexCore] at hc
    by_cases h16 : n < 16
    · rw [if_pos h16] at hc
      simp only [List.mem_singleton] at hc
      rw [hc]
      exact hexDigit_mem n
    · rw [if_neg h16] at hc
      rcases List.mem_append.1 hc with h | h
      · exact ih _ _ h
      · simp only [List.mem_singleton] at h
        rw [h]
        exact hexDigit_mem _

theorem natToHex_length_le (n : Nat) (hn : n < 4294967296) :
    (natToHex n).length ≤ 8 := by
  unfold natToHex
  show (natToHexCore (n + 1) n).length ≤ 8
  by_cases h7 : 7 ≤ n
  · exact natToHexCore_length (n + 1) 8 n (by omega) (by omega) (by norm_num; omega)
  · have := natToHexCore_length (n + 1) 1 n (by omega) (by omega) (by rw [pow_one]; omega)
    omega

theorem padStart16_length (s : String) (hs : s.length ≤ 16) :
    (padStart16 s).length = 16 := by
  simp only [padStart16, String.length]
  rw [List.length_append, List.length_replicate]
  simp only [String.length] at hs
  omega

/-- C5 counterexample: at input `"abcdef"` the fallback tier emits the hex
of `Math.abs` of the *signed* 32-bit accumulator (`0x54e6679d`), not the
hex of the accumulator masked to 32 bits (`0xab199863`) as the claim
states. -/
theorem hash_fallback_differs_from_masked_hex :
    hashContentFallback (.str "abcdef") = "0000000054e6679d"
    ∧ specRollingHashHex ((JsContent.str "abcdef").utf8Bytes)
        = "00000000ab199863"
    ∧ hashContentFallback (.str "abcdef")
        ≠ specRollingHashHex ((JsContent.str "abcdef").utf8Bytes) := by
  refine ⟨by decide, by decide, by decide⟩

/-- C5 amended: for every non-empty input, the fallback tier iterates
`hash = hash*31 + byte` over the UTF-8 bytes with the accumulator truncated
to a *signed* 32-bit integer each step (congruent mod `2^32` to the
claim's masked accumulator), and emits the hex digits of the accumulator's
absolute value, zero-padded to the fixed width 16 — a deterministic,
non-empty string of lowercase hex characters. -/
theorem hash_fallback_amended (bytes : List Nat) (_hne : bytes ≠ []) :
    (hashFallbackBytes bytes).length = 16
    ∧ hashFallbackBytes bytes ≠ ""
    ∧ (∀ c ∈ (hashFallbackBytes bytes).data,
        c ∈ hexChars)
    ∧ jsHash bytes % 4294967296 = (maskedHashSpec bytes : Int) := by
  have hb := jsHash_bounds bytes
  have habs : (jsHash bytes).natAbs < 4294967296 := by omega
  have hlen : (natToHex (jsHash bytes).natAbs).length ≤ 16 :=
    le_trans (natToHex_length_le _ habs) (by norm_num)
  have h16 : (hashFallbackBytes bytes).length = 16 :=
    padStart16_length _ hlen
  refine ⟨h16, ?_, ?_, jsHash_emod bytes⟩
  · intro hemp
    rw [hemp] at h16
    simp [String.length] at h16
  · intro c hc
    simp only [hashFallbackBytes, padStart16] at hc
    rcases List.mem_append.1 hc with h | h
    · rw [List.eq_of_mem_replicate h]
      decide
    · exact natToHexCore_chars _ _ _ h

/-- Witness for C5 at the non-empty input `"hi"`. -/
theorem hash_fallback_amended_witness :
    (JsContent.str "hi").utf8Bytes ≠ []
    ∧ ((hashFallbackBytes (JsContent.str "hi").utf8Bytes).length = 16
      ∧ hashFallbackBytes (JsContent.str "hi").utf8Bytes ≠ ""
      ∧ (∀ c ∈ (hashFallbackBytes (JsContent.str "hi").utf8Bytes).data,
          c ∈ hexChars)
      ∧ jsHash (JsContent.str "hi").utf8Bytes % 4294967296
          = (maskedHashSpec (JsContent.str "hi").utf8Bytes : Int)) :=
  ⟨by decide, hash_fallback_amended _ (by decide)⟩

/-! ## Claim C6 -/

/-- C6 counterexample: an *empty binary* argument is a truthy JS object, so
`eTag` with an empty byte buffer does set `ETag` (to the quoted digest of
the empty content) instead of leaving the mapping unchanged as the claim
states for "empty binary content". -/
theorem eTag_empty_bytes_sets_header :
    eTag hashContentFallback (some (.bytes [])) []
      = [("ETag", "\"0000000000000000\"")]
    ∧ eTag hashContentFallback (some (.bytes [])) [] ≠ [] := by
  refine ⟨by decide, by decide⟩

/-- C6 amended: `eTag` is a no-op when the argument is absent or the empty
*string*; a string beginning with a double quote is set verbatim; any other
argument — including empty binary content — sets `ETag` to the quoted
digest. -/
theorem eTag_amended (hash : JsContent → String) (h : HeaderMap) :
    eTag hash none h = h
    ∧ eTag hash (some (.str "")) h = h
    ∧ (∀ s : String, startsWithQuote s = true →
        getH (eTag hash (some (.str s)) h) "ETag" = some s)
    ∧ (∀ s : String, s ≠ "" → startsWithQuote s = false →
        getH (eTag hash (some (.str s)) h) "ETag"
          = some ("\"" ++ hash (.str s) ++ "\""))
    ∧ (∀ b : List Nat, getH (eTag hash (some (.bytes b)) h) "ETag"
        = some ("\"" ++ hash (.bytes b) ++ "\"")) := by
  refine ⟨rfl, by simp [eTag, JsContent.truthy], ?_, ?_, ?_⟩
  · intro s hq
    have hs : s ≠ "" := by
      intro he
      rw [he] at hq
      exact absurd hq (by decide)
    simp [eTag, JsContent.truthy, hs, hq, getH_setH_self]
  · intro s hs hq
    simp [eTag, JsContent.truthy, hs, hq, getH_setH_self]
  · intro b
    simp [eTag, JsContent.truthy, getH_setH_self]

/-- Witness for C6 at `eTag('"already-quoted"')`. -/
theorem eTag_amended_witness :
    startsWithQuote "\"already-quoted\"" = true
    ∧ getH (eTag hashContentFallback (some (.str "\"already-quoted\"")) [])
        "ETag" = some "\"already-quoted\"" :=
  ⟨by decide, (eTag_amended hashContentFallback []).2.2.1
    "\"already-quoted\"" (by decide)⟩

/-! ## Claim C7 -/

/-- C7 counterexample: `"json"` contains no `.`, yet `filePath("json")`
sets `Content-Type: application/json`, not the claimed fallback — the code
uses the whole dotless path as the extension token. -/
theorem filePath_dotless_known_extension :
    ('.' ∉ ("json" : String).data)
    ∧ filePath "json" [] = [("Content-Type", "application/json")]
    ∧ getH (filePath "json" []) "Content-Type"
        ≠ some "application/octet-stream" := by
  refine ⟨by decide, by decide, by decide⟩

theorem takeWhile_ne_dot_of_not_mem (l : List Char) (hl : '.' ∉ l) :
    l.takeWhile (fun c => c ≠ '.') = l := by
  induction l with
  | nil => rfl
  | cons c t ih =>
    have hc : c ≠ '.' := fun he => hl (he ▸ List.mem_cons_self c t)
    have ht : '.' ∉ t := fun hm => hl (List.mem_cons_of_mem c hm)
    rw [List.takeWhile_cons, if_pos (by simp [hc]), ih ht]

theorem afterLastDot_of_not_mem (cs : List Char) (hc : '.' ∉ cs) :
    afterLastDot cs = cs := by
  unfold afterLastDot
  rw [takeWhile_ne_dot_of_not_mem _ (by simpa using hc), List.reverse_reverse]

/-- C7 amended: `filePath` uses the substring after the last `.` — for a
dotless path, the whole path — lowercased, as the extension token; the
fallback `application/octet-stream` results exactly when that token is not
in the MIME table (so `filePath("noext")` falls back, while a dotless path
that happens to spell a known token, like `"json"`, does not). -/
theorem filePath_amended (h : HeaderMap) :
    getH (filePath "style.css" h) "Content-Type" = some "text/css"
    ∧ getH (filePath "archive.tar.gz" h) "Content-Type"
        = some "application/gzip"
    ∧ (∀ p : String, '.' ∉ p.data →
        getH (filePath p h) "Content-Type"
          = some (getMimeType ⟨p.data.map Char.toLower⟩))
    ∧ (∀ p : String, '.' ∉ p.data →
        MIME_TYPES.lookup (⟨p.data.map Char.toLower⟩ : String) = none →
        getH (filePath p h) "Content-Type" = some "application/octet-stream")
    ∧ getH (filePath "noext" h) "Content-Type"
        = some "application/octet-stream" := by
  have hdotless : ∀ p : String, '.' ∉ p.data →
      getH (filePath p h) "Content-Type"
        = some (getMimeType ⟨p.data.map Char.toLower⟩) := by
    intro p hp
    simp only [filePath, afterLastDot_of_not_mem _ hp]
    rw [getH_setH_self]
  refine ⟨?_, ?_, hdotless, ?_, ?_⟩
  · simp only [filePath]
    rw [getH_setH_self]
    decide
  · simp only [filePath]
    rw [getH_setH_self]
    decide
  · intro p hp hlk
    rw [hdotless p hp]
    simp [getMimeType, hlk]
  · simp only [filePath]
    rw [getH_setH_self]
    decide

/-- Witness for C7 at the dotless, unknown-token path `"noext"`. -/
theorem filePath_amended_witness :
    ('.' ∉ ("noext" : String).data)
    ∧ MIME_TYPES.lookup (⟨("noext" : String).data.map Char.toLower⟩ : String)
        = none
    ∧ getH (filePath "noext" []) "Content-Type"
        = some "application/octet-stream" :=
  ⟨by decide, by decide,
    (filePath_amended []).2.2.2.1 "noext" (by decide) (by decide)⟩

/-! ## Claim C8 -/

/-- C8 counterexample: the empty string is a provided content argument with
byte length 0, but `build("")` injects no `Content-Length` (JS treats the
empty string as no content), where the claim requires `"0"`. -/
theorem build_empty_string_counterexample :
    build [] (some (.str "")) = []
    ∧ (JsContent.str "").byteLength = 0
    ∧ getH (build [] (some (.str ""))) "Content-Length" = none := by
  refine ⟨by decide, by decide, by decide⟩

/-- C8 amended: for every *truthy* content argument (a non-empty string, or
any binary content), `build` injects `Content-Length` as the decimal byte
length when the key is absent or empty, and keeps any existing non-empty
value; an empty-string argument (and an absent one) injects nothing. -/
theorem build_content_length_amended :
    (∀ (h : HeaderMap) (c : JsContent), c.truthy = true →
      jsTruthy (getH h "Content-Length") = false →
      getH (build h (some c)) "Content-Length"
        = some (toString c.byteLength))
    ∧ (∀ (h : HeaderMap) (c : JsContent) (v : String),
        getH h "Content-Length" = some v → v ≠ "" → build h (some c) = h)
    ∧ (∀ h : HeaderMap, build h (some (.str "")) = h)
    ∧ (∀ h : HeaderMap, build h none = h)
    ∧ getH (build [] (some (.str "hello"))) "Content-Length" = some "5"
    ∧ getH (build (contentLength 99 []) (some (.str "hello")))
        "Content-Length" = some "99" := by
  refine ⟨?_, ?_, ?_, fun h => rfl, by decide, by decide⟩
  · intro h c hc hcl
    simp [build, hc, hcl, getH_setH_self]
  · intro h c v hv hvne
    simp [build, jsTruthy, hv, hvne]
  · intro h
    simp [build, JsContent.truthy]

/-- Witness for C8 at `build("hello")` on a fresh builder. -/
theorem build_content_length_amended_witness :
    (JsContent.str "hello").truthy = true
    ∧ jsTruthy (getH ([] : HeaderMap) "Content-Length") = false
    ∧ getH (build [] (some (.str "hello"))) "Content-Length"
        = some (toString (JsContent.str "hello").byteLength) :=
  ⟨by decide, by decide,
    build_content_length_amended.1 [] (.str "hello") (by decide) (by decide)⟩

/-! ## Claim C9 -/

/-- C9: `build` hands back a fresh object, never an alias of the builder's
own: the returned reference differs from the builder's, the builder's
object is unchanged by the call, and writing through the returned reference
leaves both the builder's object and the result of any later `build`
unchanged. -/
theorem build_returns_fresh_copy (st : Store) (r : Nat)
    (content : Option JsContent) (hr : r < st.cells.length) :
    (buildAlloc st r content).2 ≠ r
    ∧ readRef (buildAlloc st r content).1 r = readRef st r
    ∧ (∀ m : HeaderMap,
        readRef (writeRef (buildAlloc st r content).1
          (buildAlloc st r content).2 m) r = readRef st r)
    ∧ (∀ (m : HeaderMap) (c2 : Option JsContent),
        build (readRef (writeRef (buildAlloc st r content).1
          (buildAlloc st r content).2 m) r) c2
          = build (readRef st r) c2) := by
  have h2 : (buildAlloc st r content).2 = st.cells.length := rfl
  have hwrite : ∀ m : HeaderMap,
      readRef (writeRef (buildAlloc st r content).1
        (buildAlloc st r content).2 m) r = readRef st r := by
    intro m
    simp only [buildAlloc, allocRef, writeRef, readRef]
    rw [List.getD_eq_getElem?_getD, List.getElem?_set_ne (by omega),
      ← List.getD_eq_getElem?_getD]
    exact List.getD_append _ _ _ _ hr
  refine ⟨by rw [h2]; omega, ?_, hwrite, fun m c2 => by rw [hwrite m]⟩
  simp only [buildAlloc, allocRef, readRef]
  exact List.getD_append _ _ _ _ hr

/-- Witness for C9 on a one-object store. -/
theorem build_returns_fresh_copy_witness :
    (0 : Nat) < (Store.mk [[("A", "B")]]).cells.length
    ∧ (buildAlloc ⟨[[("A", "B")]]⟩ 0 none).2 ≠ 0
    ∧ readRef (writeRef (buildAlloc ⟨[[("A", "B")]]⟩ 0 none).1
        (buildAlloc ⟨[[("A", "B")]]⟩ 0 none).2 [("X", "Y")]) 0
      = readRef ⟨[[("A", "B")]]⟩ 0 :=
  ⟨by decide,
    (build_returns_fresh_copy ⟨[[("A", "B")]]⟩ 0 none (by decide)).1,
    (build_returns_fresh_copy ⟨[[("A", "B")]]⟩ 0 none
      (by decide)).2.2.1 [("X", "Y")]⟩

/-! ## Claim C10 -/

theorem cors_ok_preserves (o : CorsOptions) (h h' : HeaderMap)
    (hok : cors o h = .ok h') (k : String)
    (hk : (getH h k).isSome = true) : (getH h' k).isSome = true := by
  simp only [cors] at hok
  split at hok
  · exact absurd hok (by simp)
  · injection hok with hh
    subst hh
    apply isSome_getH_setH
    split
    · apply isSome_getH_setH
      apply isSome_getH_setH
      apply isSome_getH_setH
      apply isSome_getH_setH
      exact hk
    · apply isSome_getH_setH
      apply isSome_getH_setH
      apply isSome_getH_setH
      exact hk

theorem customHeaders_preserves (hdrs : List (String × String)) :
    ∀ (h : HeaderMap) (k : String), (getH h k).isSome = true →
      (getH (customHeaders hdrs h) k).isSome = true := by
  induction hdrs with
  | nil => intro h k hk; exact hk
  | cons p t ih =>
    intro h k hk
    exact ih (setH h p.1 p.2) k (isSome_getH_setH _ _ _ _ hk)

/-- C10: no builder operation removes a key — after any operation the key
set is a superset of what it was (a `cors` call that throws leaves the
mapping untouched).  In particular a `cache` call whose strategy has no
`expires` entry, made after one that set `Expires`, leaves the earlier
`Expires` value in place next to the new `Cache-Control`. -/
theorem ops_never_remove_keys :
    (∀ (env : DateEnv) (hash : JsContent → String) (op : BuilderOp)
        (h : HeaderMap) (k : String),
      (getH h k).isSome = true →
      (getH (applyOp env hash op h) k).isSome = true)
    ∧ (∀ (env : DateEnv) (hash : JsContent → String) (h : HeaderMap),
        env.oneYearFromNowUTC ≠ "" →
        getH (applyOp env hash (.cache .ONE_MONTH)
          (applyOp env hash (.cache .ONE_YEAR) h)) "Expires"
          = some env.oneYearFromNowUTC) := by
  constructor
  · intro env hash op h k hk
    cases op with
    | contentType t => exact isSome_getH_setH _ _ _ _ hk
    | filePath p => exact isSome_getH_setH _ _ _ _ hk
    | mimeType m => exact isSome_getH_setH _ _ _ _ hk
    | cache s =>
      simp only [applyOp, cache]
      split
      · split
        · exact isSome_getH_setH _ _ _ _ (isSome_getH_setH _ _ _ _ hk)
        · exact isSome_getH_setH _ _ _ _ hk
      · exact isSome_getH_setH _ _ _ _ hk
    | eTag c =>
      simp only [applyOp, eTag]
      split
      · exact hk
      · split
        · exact hk
        · exact isSome_getH_setH _ _ _ _ hk
    | lastModified d => exact isSome_getH_setH _ _ _ _ hk
    | contentLength n => exact isSome_getH_setH _ _ _ _ hk
    | redirect u p =>
      exact isSome_getH_setH _ _ _ _ (isSome_getH_setH _ _ _ _ hk)
    | cors o =>
      cases hc : cors o h with
      | error e =>
        simp only [applyOp, hc]
        exact hk
      | ok h' =>
        simp only [applyOp, hc]
        exact cors_ok_preserves o h h' hc k hk
    | security o =>
      simp only [applyOp, security]
      repeat' split
      all_goals repeat apply isSome_getH_setH
      all_goals exact hk
    | custom n v => exact isSome_getH_setH _ _ _ _ hk
    | customHeaders m => exact customHeaders_preserves m h k hk
    | vary f => exact isSome_getH_setH _ _ _ _ hk
    | compress e =>
      simp only [applyOp, compress]
      split
      · split
        · exact isSome_getH_setH _ _ _ _ hk
        · exact hk
      · exact hk
  · intro env hash h hy
    simp only [applyOp, cache, getCacheConfig, CACHE_CONFIGS]
    rw [if_pos hy, getH_setH_ne _ _ _ _ (by decide), getH_setH_self]

/-- Witness for C10: a custom key survives a `mimeType` call, and the
`Expires` of `ONE_YEAR` survives a following `ONE_MONTH`. -/
theorem ops_never_remove_keys_witness :
    (getH [("X-A", "y")] "X-A").isSome = true
    ∧ (getH (applyOp ⟨"E0", "E1"⟩ hashContentFallback (.mimeType "m")
        [("X-A", "y")]) "X-A").isSome = true
    ∧ ("E1" : String) ≠ ""
    ∧ getH (applyOp ⟨"E0", "E1"⟩ hashContentFallback (.cache .ONE_MONTH)
        (applyOp ⟨"E0", "E1"⟩ hashContentFallback (.cache .ONE_YEAR) []))
        "Expires" = some "E1" :=
  ⟨by decide,
    ops_never_remove_keys.1 ⟨"E0", "E1"⟩ hashContentFallback
      (.mimeType "m") [("X-A", "y")] "X-A" (by decide),
    by decide,
    ops_never_remove_keys.2 ⟨"E0", "E1"⟩ hashContentFallback [] (by decide)⟩

end HeadersBuilderLib
